import Mathlib

/-!
Verification of the adex-export DHIS2 data-transfer pipeline.

The repository holds several independent implementations of the same
transfer pipeline (org-unit discovery, chunked CSV extraction,
validation/normalization, batched load, result aggregation).  This file
gives a shallow embedding of the parts of those implementations that the
specification talks about and proves (or refutes) the specified
properties.

Naming convention: definitions keep the JavaScript names where Lean
allows it.  Functions taken from the class-based scripts in `main.js`
carry a `V1` (date-range variant) or `V2` (period variant) suffix; the
streaming script's functions keep their plain names.
-/

namespace AdexExport

/-! ## Batcher

Two batching implementations appear in the source:

* the class variants call lodash `chunk(dataValues, this.batchSize)`
  (`main.js`, the `complete` callbacks of both `downloadCSV` methods);
* the streaming variant uses a `BatchProcessor` transform stream
  (`src/unnamed/part_000`, lines 337-366): `_transform` pushes each
  record onto `this.batch` and emits the batch once
  `this.batch.length >= this.batchSize`; `_flush` emits a trailing
  non-empty batch.
-/

/-- Lodash `chunk`: splits `l` into contiguous slices of `size`
elements; the final slice holds the remainder.  `chunk` returns `[]`
when `size` is `0` (lodash clamps negative sizes to `0`). -/
def lchunk (l : List α) (size : Nat) : List (List α) :=
  if hs : size = 0 then []
  else if hl : l.isEmpty then []
  else l.take size :: lchunk (l.drop size) size
termination_by l.length
decreasing_by
  have hs0 : 0 < size := Nat.pos_of_ne_zero hs
  have hl0 : 0 < l.length := by
    cases l with
    | nil => simp at hl
    | cons x xs => simp
  simp only [List.length_drop]
  omega

/-- One `_transform` call of `BatchProcessor`: append the record to the
pending buffer; if the buffer has reached `batchSize`, emit it and reset. -/
def batchStep (batchSize : Nat) (st : List (List α) × List α) (x : α) :
    List (List α) × List α :=
  let buf := st.2 ++ [x]
  if batchSize ≤ buf.length then (st.1 ++ [buf], []) else (st.1, buf)

/-- The `BatchProcessor` stream run to completion over a finite input:
feed every record through `_transform`, then `_flush` the trailing
buffer when it is non-empty. -/
def batchProcess (batchSize : Nat) (l : List α) : List (List α) :=
  let st := l.foldl (batchStep batchSize) ([], [])
  if st.2.isEmpty then st.1 else st.1 ++ [st.2]

theorem lchunk_nil (size : Nat) : lchunk ([] : List α) size = [] := by
  rw [lchunk]
  simp

theorem lchunk_cons (l : List α) (size : Nat) (hs : size ≠ 0) (hl : l ≠ []) :
    lchunk l size = l.take size :: lchunk (l.drop size) size := by
  rw [lchunk]
  simp [hs, hl]

/-- Concatenating the chunks in order reproduces the input. -/
theorem lchunk_join (size : Nat) (l : List α) (hs : size ≠ 0) :
    (lchunk l size).flatten = l := by
  induction l, size using lchunk.induct with
  | case1 l => exact absurd rfl hs
  | case2 l size h hl =>
    have hnil : l = [] := by simpa using hl
    subst hnil
    simp [lchunk_nil]
  | case3 l size h hl ih =>
    have hne : l ≠ [] := by simpa using hl
    rw [lchunk_cons l size h hne]
    simp only [List.flatten_cons, ih hs]
    exact List.take_append_drop size l

/-- Every chunk is non-empty and no larger than `size`. -/
theorem lchunk_mem_length (size : Nat) (l : List α) (hs : size ≠ 0) :
    ∀ b ∈ lchunk l size, 0 < b.length ∧ b.length ≤ size := by
  induction l, size using lchunk.induct with
  | case1 l => exact absurd rfl hs
  | case2 l size h hl =>
    have hnil : l = [] := by simpa using hl
    subst hnil
    simp [lchunk_nil]
  | case3 l size h hl ih =>
    have hne : l ≠ [] := by simpa using hl
    rw [lchunk_cons l size h hne]
    intro b hb
    rcases List.mem_cons.mp hb with hb | hb
    · subst hb
      have hlen : 0 < l.length := List.length_pos.mpr hne
      have hsz : 0 < size := Nat.pos_of_ne_zero h
      constructor
      · simp only [List.length_take]
        omega
      · simp [List.length_take]
    · exact ih hs b hb

/-- The number of chunks is `⌈N / size⌉`, written `(N + size - 1) / size`. -/
theorem lchunk_length (size : Nat) (l : List α) (hs : size ≠ 0) :
    (lchunk l size).length = (l.length + size - 1) / size := by
  induction l, size using lchunk.induct with
  | case1 l => exact absurd rfl hs
  | case2 l size h hl =>
    have hnil : l = [] := by simpa using hl
    subst hnil
    have hsz : 0 < size := Nat.pos_of_ne_zero h
    rw [lchunk_nil]
    simp [Nat.div_eq_of_lt (by omega : size - 1 < size)]
  | case3 l size h hl ih =>
    have hne : l ≠ [] := by simpa using hl
    have hsz : 0 < size := Nat.pos_of_ne_zero h
    have hlen : 0 < l.length := List.length_pos.mpr hne
    rw [lchunk_cons l size h hne]
    simp only [List.length_cons, ih hs, List.length_drop]
    rcases Nat.lt_or_ge size l.length with hcase | hcase
    · have e1 : l.length - size + size - 1 = (l.length - size - 1) + size := by omega
      have e2 : l.length + size - 1 = (l.length - 1) + size := by omega
      have e3 : l.length - 1 = (l.length - size - 1) + size := by omega
      rw [e1, Nat.add_div_right _ hsz, e2, Nat.add_div_right _ hsz, e3,
        Nat.add_div_right _ hsz]
    · have e1 : l.length - size = 0 := by omega
      have e2 : l.length + size - 1 = (l.length - 1) + size := by omega
      rw [e1, e2, Nat.add_div_right _ hsz]
      simp [Nat.div_eq_of_lt (by omega : size - 1 < size),
        Nat.div_eq_of_lt (by omega : l.length - 1 < size)]

/-- Every chunk except possibly the last has exactly `size` elements. -/
theorem lchunk_dropLast_length (size : Nat) (l : List α) (hs : size ≠ 0) :
    ∀ b ∈ (lchunk l size).dropLast, b.length = size := by
  induction l, size using lchunk.induct with
  | case1 l => exact absurd rfl hs
  | case2 l size h hl =>
    have hnil : l = [] := by simpa using hl
    subst hnil
    simp [lchunk_nil]
  | case3 l size h hl ih =>
    have hne : l ≠ [] := by simpa using hl
    rw [lchunk_cons l size h hne]
    cases hrest : lchunk (l.drop size) size with
    | nil => simp
    | cons r rs =>
      intro b hb
      rw [List.dropLast_cons₂] at hb
      rcases List.mem_cons.mp hb with hb | hb
      · subst hb
        have hdrop : l.drop size ≠ [] := by
          intro hnil
          rw [lchunk] at hrest
          simp [hnil] at hrest
        have hlt : size < l.length := by
          by_contra hcon
          push_neg at hcon
          exact hdrop (List.drop_eq_nil_of_le hcon)
        simp only [List.length_take]
        omega
      · have := ih hs b
        rw [hrest] at this
        exact this hb

/-- Invariant for the running `BatchProcessor` fold: with a pending
buffer shorter than `batchSize`, finishing the stream produces exactly
the lodash chunking of the buffer followed by the remaining input. -/
theorem batchProcess_aux (size : Nat) (hs : size ≠ 0) (l : List α) :
    ∀ out buf, buf.length < size →
      (let st := l.foldl (batchStep size) (out, buf)
       if st.2.isEmpty then st.1 else st.1 ++ [st.2]) =
        out ++ lchunk (buf ++ l) size := by
  induction l with
  | nil =>
    intro out buf hbuf
    by_cases hb : buf = []
    · subst hb
      simp [lchunk_nil]
    · have : buf.length ≤ size := Nat.le_of_lt hbuf
      simp only [List.foldl, List.append_nil]
      rw [lchunk_cons buf size hs hb,
        List.take_of_length_le this, List.drop_eq_nil_of_le this, lchunk_nil]
      simp [hb]
  | cons x l ih =>
    intro out buf hbuf
    simp only [List.foldl]
    rw [show batchStep size (out, buf) x =
        (if size ≤ (buf ++ [x]).length then (out ++ [buf ++ [x]], ([] : List α))
         else (out, buf ++ [x])) from rfl]
    by_cases hfull : size ≤ (buf ++ [x]).length
    · have hexact : (buf ++ [x]).length = size := by
        simp only [List.length_append, List.length_singleton] at hfull ⊢
        omega
      simp only [hfull, if_true]
      rw [ih (out ++ [buf ++ [x]]) [] (Nat.pos_of_ne_zero hs)]
      have hne : buf ++ x :: l ≠ [] := by simp
      rw [lchunk_cons (buf ++ x :: l) size hs hne]
      have hsplit : buf ++ x :: l = (buf ++ [x]) ++ l := by simp
      rw [hsplit, List.take_append_of_le_length (by omega),
        List.drop_append_of_le_length (by omega)]
      rw [List.take_of_length_le (by omega), List.drop_eq_nil_of_le (by omega)]
      simp
    · simp only [hfull, if_false]
      rw [ih out (buf ++ [x]) (by
        simp only [List.length_append, List.length_singleton] at hfull ⊢
        omega)]
      simp

/-- The streaming `BatchProcessor` computes the same batches as lodash
`chunk`. -/
theorem batchProcess_eq_lchunk (size : Nat) (hs : size ≠ 0) (l : List α) :
    batchProcess size l = lchunk l size := by
  have := batchProcess_aux size hs l [] [] (Nat.pos_of_ne_zero hs)
  simpa [batchProcess] using this

/-- C1: for every finite sequence of records and every batch size
`B > 0`, the batching operation (lodash `chunk` in the class variants,
`BatchProcessor` in the streaming variant — both compute the same
batches) yields `⌈N / B⌉` batches, each batch is non-empty and holds at
most `B` records, every batch except possibly the last holds exactly
`B` records, and concatenating the batches in yield order reproduces
the input sequence exactly. -/
theorem batching_contract (l : List α) (B : Nat) (hB : 0 < B) :
    batchProcess B l = lchunk l B ∧
    (lchunk l B).length = (l.length + B - 1) / B ∧
    (∀ b ∈ lchunk l B, 0 < b.length ∧ b.length ≤ B) ∧
    (∀ b ∈ (lchunk l B).dropLast, b.length = B) ∧
    (lchunk l B).flatten = l := by
  have hB0 : B ≠ 0 := Nat.pos_iff_ne_zero.mp hB
  exact ⟨batchProcess_eq_lchunk B hB0 l, lchunk_length B l hB0,
    lchunk_mem_length B l hB0, lchunk_dropLast_length B l hB0,
    lchunk_join B l hB0⟩

/-- Witness for `batching_contract` at a concrete input: five records
with batch size two. -/
theorem batching_contract_witness :
    0 < 2 ∧
    (batchProcess 2 [10, 20, 30, 40, 50] = lchunk [10, 20, 30, 40, 50] 2 ∧
     (lchunk [10, 20, 30, 40, 50] 2).length = (([10, 20, 30, 40, 50] : List Nat).length + 2 - 1) / 2 ∧
     (∀ b ∈ lchunk [10, 20, 30, 40, 50] 2, 0 < b.length ∧ b.length ≤ 2) ∧
     (∀ b ∈ (lchunk [10, 20, 30, 40, 50] 2).dropLast, b.length = 2) ∧
     (lchunk [10, 20, 30, 40, 50] 2).flatten = [10, 20, 30, 40, 50]) :=
  ⟨by decide, batching_contract [10, 20, 30, 40, 50] 2 (by decide)⟩

/-! ## Record Normalizer

From `main.js`: `isValidDataValue` requires the six lower-case CSV
fields `dataelement, period, orgunit, value, categoryoptioncombo,
attributeoptioncombo` to be present and non-blank after trimming
(`Boolean(data[field]?.trim())`); `normalizeDataValue` renames the
fields to their canonical form and trims `value`.  The Papa Parse
`step` callback pushes `normalizeDataValue(data)` exactly when
`isValidDataValue(data)` holds.

A `RawRecord` models the parsed CSV row: each field is `Option String`
(`none` models a field absent from the header row, i.e. `undefined`
in JavaScript). -/

structure RawRecord where
  dataelement : Option String
  period : Option String
  orgunit : Option String
  value : Option String
  categoryoptioncombo : Option String
  attributeoptioncombo : Option String
  storedby : Option String
  lastupdated : Option String
  comment : Option String
  followup : Option String
deriving DecidableEq, Repr

/-- The canonical record shape produced by `normalizeDataValue`. -/
structure CanonicalRecord where
  dataElement : Option String
  period : Option String
  orgUnit : Option String
  categoryOptionCombo : Option String
  attributeOptionCombo : Option String
  value : String
  storedBy : Option String
  lastUpdated : Option String
  comment : Option String
  followup : Option String
deriving DecidableEq, Repr

/-- JavaScript errors that the embedded code can raise.  `typeError`
models a member access on `undefined`. -/
inductive JsFailure
  | typeError
deriving DecidableEq, Repr

/-- `Boolean(v?.trim())`: `false` when the field is `undefined` or its
trimmed text is empty. -/
def jsTruthyTrimmed : Option String → Bool
  | none => false
  | some s => !s.trim.isEmpty

/-- `isValidDataValue` from `main.js` (lines 236-245 and 542-551): all
six mandatory fields present and non-blank after trimming. -/
def isValidDataValue (d : RawRecord) : Bool :=
  jsTruthyTrimmed d.dataelement && jsTruthyTrimmed d.period &&
    jsTruthyTrimmed d.orgunit && jsTruthyTrimmed d.value &&
    jsTruthyTrimmed d.categoryoptioncombo &&
    jsTruthyTrimmed d.attributeoptioncombo

/-- `normalizeDataValue` from `main.js` (lines 251-264 and 557-570):
renames the lower-case fields to canonical names and trims `value`.
`data.value.trim()` throws a `TypeError` when `value` is `undefined`,
hence the `Except`. -/
def normalizeDataValue (d : RawRecord) : Except JsFailure CanonicalRecord :=
  match d.value with
  | none => .error .typeError
  | some v => .ok
      { dataElement := d.dataelement
        period := d.period
        orgUnit := d.orgunit
        categoryOptionCombo := d.categoryoptioncombo
        attributeOptionCombo := d.attributeoptioncombo
        value := v.trim
        storedBy := d.storedby
        lastUpdated := d.lastupdated
        comment := d.comment
        followup := d.followup }

/-- The Papa Parse `step` callback: keep the normalized record when the
row is valid, drop it otherwise. -/
def parseStep (d : RawRecord) : Except JsFailure (Option CanonicalRecord) :=
  if isValidDataValue d then (normalizeDataValue d).map some
  else .ok none

/-- The whole parse phase over a finite row sequence: the `dataValues`
array accumulated by repeated `step` calls. -/
def normalize : List RawRecord → Except JsFailure (List CanonicalRecord)
  | [] => .ok []
  | d :: rows =>
    match parseStep d, normalize rows with
    | .ok o, .ok rest => .ok (o.toList ++ rest)
    | .error e, _ => .error e
    | .ok _, .error e => .error e

/-- The validity predicate as the specification words it: each of the
six mandatory fields is present and non-blank after trimming. -/
def MandatoryNonBlank (d : RawRecord) : Prop :=
  (∃ s, d.dataelement = some s ∧ s.trim ≠ "") ∧
  (∃ s, d.period = some s ∧ s.trim ≠ "") ∧
  (∃ s, d.orgunit = some s ∧ s.trim ≠ "") ∧
  (∃ s, d.value = some s ∧ s.trim ≠ "") ∧
  (∃ s, d.categoryoptioncombo = some s ∧ s.trim ≠ "") ∧
  (∃ s, d.attributeoptioncombo = some s ∧ s.trim ≠ "")

theorem jsTruthyTrimmed_iff (v : Option String) :
    jsTruthyTrimmed v = true ↔ ∃ s, v = some s ∧ s.trim ≠ "" := by
  cases v with
  | none => simp [jsTruthyTrimmed]
  | some s =>
    have h := String.isEmpty_iff s.trim
    simp only [jsTruthyTrimmed, Bool.not_eq_true', Option.some.injEq]
    constructor
    · intro hfalse
      refine ⟨s, rfl, fun he => ?_⟩
      rw [h.mpr he] at hfalse
      cases hfalse
    · rintro ⟨t, ht, hne⟩
      subst ht
      cases hb : s.trim.isEmpty
      · rfl
      · exact absurd (h.mp hb) hne

/-- The code predicate coincides with the specification predicate. -/
theorem isValidDataValue_iff (d : RawRecord) :
    isValidDataValue d = true ↔ MandatoryNonBlank d := by
  unfold isValidDataValue MandatoryNonBlank
  simp only [Bool.and_eq_true, jsTruthyTrimmed_iff]
  tauto

theorem parseStep_total (d : RawRecord) :
    ∃ r, parseStep d = .ok r := by
  by_cases hv : isValidDataValue d
  · rcases ((isValidDataValue_iff d).mp hv).2.2.2.1 with ⟨s, hs, _⟩
    refine ⟨some { dataElement := d.dataelement
                   period := d.period
                   orgUnit := d.orgunit
                   categoryOptionCombo := d.categoryoptioncombo
                   attributeOptionCombo := d.attributeoptioncombo
                   value := s.trim
                   storedBy := d.storedby
                   lastUpdated := d.lastupdated
                   comment := d.comment
                   followup := d.followup }, ?_⟩
    simp [parseStep, hv, normalizeDataValue, hs, Except.map]
  · exact ⟨none, by simp [parseStep, hv]⟩

theorem normalize_total (rows : List RawRecord) :
    ∃ cs, normalize rows = .ok cs := by
  induction rows with
  | nil => exact ⟨[], rfl⟩
  | cons d rows ih =>
    rcases parseStep_total d with ⟨r, hr⟩
    rcases ih with ⟨cs, hcs⟩
    exact ⟨r.toList ++ cs, by rw [normalize, hr, hcs]⟩

/-- C2: the parse step never throws; a record in which some mandatory
field is missing or blank after trimming is excluded from the output,
and a record with all six mandatory fields non-blank after trimming is
kept; over a whole row sequence, `normalize` completes without
throwing. -/
theorem normalize_validity_filter (d : RawRecord) (rows : List RawRecord) :
    (∃ r, parseStep d = .ok r ∧ (r.isSome ↔ MandatoryNonBlank d)) ∧
    (∃ cs, normalize rows = .ok cs) := by
  refine ⟨?_, normalize_total rows⟩
  by_cases hv : isValidDataValue d
  · have hmand := (isValidDataValue_iff d).mp hv
    rcases hmand.2.2.2.1 with ⟨s, hs, _⟩
    refine ⟨some { dataElement := d.dataelement
                   period := d.period
                   orgUnit := d.orgunit
                   categoryOptionCombo := d.categoryoptioncombo
                   attributeOptionCombo := d.attributeoptioncombo
                   value := s.trim
                   storedBy := d.storedby
                   lastUpdated := d.lastupdated
                   comment := d.comment
                   followup := d.followup }, ?_, by simp [hmand]⟩
    simp [parseStep, hv, normalizeDataValue, hs, Except.map]
  · have hmand : ¬ MandatoryNonBlank d := fun hc =>
      hv ((isValidDataValue_iff d).mpr hc)
    exact ⟨none, by simp [parseStep, hv], by simp [hmand]⟩

/-! ## Batch submission (`processDataValuesBatch`)

Both class variants in `main.js` post a batch to
`POST /api/dataValueSets` and read the DHIS2 import report from
`data.response`.  On an axios failure the error object may carry the
HTTP response under `error.response`, whose `data` holds the parsed
body; the import report then sits under the body's nested `response`
key.  Destructuring `error.response.data.response` throws a
`TypeError` when `error.response` is `undefined` (no HTTP response,
e.g. a network failure) or when the body has no `response` key. -/

/-- The DHIS2 `importCount` object: the four counters of an import
report. -/
structure ImportCount where
  imported : Nat
  updated : Nat
  ignored : Nat
  deleted : Nat
deriving DecidableEq, Repr

/-- The DHIS2 import report found under a body's `response` key.  Both
members may be absent. -/
structure ImportReport where
  importCount : Option ImportCount
  conflicts : Option (List String)
deriving DecidableEq, Repr

/-- A parsed response body: `response` is absent when the destination
returned a body without the nested report. -/
structure RespData where
  response : Option ImportReport
deriving DecidableEq, Repr

/-- An axios HTTP response object as seen from an error handler: its
`data` member is the parsed body. -/
structure AxiosResp where
  body : RespData
deriving DecidableEq, Repr

/-- An axios error: `response` is `undefined` when no HTTP response was
received at all. -/
structure AxiosErr where
  response : Option AxiosResp
deriving DecidableEq, Repr

/-- Outcome of `processDataValuesBatch` in the period variant
(`main.js` lines 451-469). -/
inductive BatchResult
  /-- The `{ imported: 0 }` object returned for an empty batch. -/
  | emptyShort
  /-- The `{ importCount, conflicts }` object destructured from the
  body's nested `response` key. -/
  | report (importCount : Option ImportCount) (conflicts : Option (List String))
deriving DecidableEq, Repr

/-- `processDataValuesBatch` of the period variant (`main.js` lines
451-469), instrumented with the number of HTTP requests it issues
(second component).  `post` is the destination's behaviour for one
`POST /api/dataValueSets` call. -/
def processDataValuesBatchV2 (post : List CanonicalRecord → Except AxiosErr RespData)
    (dataValues : List CanonicalRecord) : Except JsFailure BatchResult × Nat :=
  if dataValues.length = 0 then (.ok .emptyShort, 0)
  else
    match post dataValues with
    | .ok body =>
      match body.response with
      | none => (.error .typeError, 1)
      | some rep => (.ok (.report rep.importCount rep.conflicts), 1)
    | .error e =>
      match e.response with
      | none => (.error .typeError, 1)
      | some resp =>
        match resp.body.response with
        | none => (.error .typeError, 1)
        | some rep => (.ok (.report rep.importCount rep.conflicts), 1)

/-- Console output of the date-range variant's
`processDataValuesBatch`. -/
inductive LogV1
  | importing (n : Nat)
  | importCountLine (ic : Option ImportCount)
  | conflictsLine (cs : List String)
deriving DecidableEq, Repr

/-- Outcome of `processDataValuesBatch` in the date-range variant
(`main.js` lines 122-153): either the `{ imported: 0 }` empty-batch
object or the implicit `undefined` return. -/
inductive BatchResultV1
  | emptyShort
  | undefinedReturn
deriving DecidableEq, Repr

/-- `processDataValuesBatch` of the date-range variant (`main.js`
lines 122-153): logs the report instead of returning it and swallows
every error (a `TypeError` raised inside the `try` is caught by the
same `catch`, whose guards then fail silently).  Components: result,
number of HTTP requests issued, console output. -/
def processDataValuesBatchV1 (post : List CanonicalRecord → Except AxiosErr RespData)
    (dataValues : List CanonicalRecord) : BatchResultV1 × Nat × List LogV1 :=
  let header := [LogV1.importing dataValues.length]
  if dataValues.length = 0 then (.emptyShort, 0, header)
  else
    match post dataValues with
    | .ok body =>
      match body.response with
      | none => (.undefinedReturn, 1, header)
      | some rep => (.undefinedReturn, 1, header ++ [LogV1.importCountLine rep.importCount])
    | .error e =>
      match e.response with
      | none => (.undefinedReturn, 1, header)
      | some resp =>
        match resp.body.response with
        | none => (.undefinedReturn, 1, header)
        | some rep =>
          (.undefinedReturn, 1,
            header ++ (rep.conflicts.map (fun cs => [LogV1.conflictsLine cs])).getD []
              ++ (rep.importCount.map (fun ic => [LogV1.importCountLine (some ic)])).getD [])

/-- C6: when a batch submission fails at the HTTP level but the error
response body carries an import report under its nested `response`
key, the period variant returns that partial report instead of
throwing, and the date-range variant surfaces the report's conflicts
and counts on the console without throwing. -/
theorem submit_failure_salvages_report
    (post : List CanonicalRecord → Except AxiosErr RespData)
    (dv : List CanonicalRecord) (e : AxiosErr) (resp : AxiosResp)
    (rep : ImportReport)
    (hne : dv ≠ [])
    (hpost : post dv = .error e)
    (hresp : e.response = some resp)
    (hrep : resp.body.response = some rep) :
    (processDataValuesBatchV2 post dv).1 =
      .ok (.report rep.importCount rep.conflicts) ∧
    (∀ ic cs, rep.importCount = some ic → rep.conflicts = some cs →
      (processDataValuesBatchV1 post dv).2.2 =
        [LogV1.importing dv.length, LogV1.conflictsLine cs,
         LogV1.importCountLine (some ic)]) := by
  have hlen : dv.length ≠ 0 := fun h => hne (List.eq_nil_of_length_eq_zero h)
  constructor
  · simp [processDataValuesBatchV2, hlen, hpost, hresp, hrep]
  · intro ic cs hic hcs
    simp [processDataValuesBatchV1, hlen, hpost, hresp, hrep, hic, hcs]

/-- A concrete import report carried by a failing HTTP response: three
conflicts, nothing imported. -/
def repRejecting : ImportReport := ⟨some ⟨0, 0, 3, 0⟩, some ["c1", "c2", "c3"]⟩

/-- The failing HTTP response carrying `repRejecting`. -/
def respRejecting : AxiosResp := ⟨⟨some repRejecting⟩⟩

/-- The axios error raised for `respRejecting`. -/
def errRejecting : AxiosErr := ⟨some respRejecting⟩

/-- A concrete destination that always fails with an HTTP error whose
body still carries an import report. -/
def postRejecting : List CanonicalRecord → Except AxiosErr RespData :=
  fun _ => .error errRejecting

/-- A concrete canonical record used by witnesses. -/
def cRecA : CanonicalRecord :=
  { dataElement := some "de1"
    period := some "202401"
    orgUnit := some "ou1"
    categoryOptionCombo := some "coc"
    attributeOptionCombo := some "aoc"
    value := "10"
    storedBy := none
    lastUpdated := none
    comment := none
    followup := none }

/-- Witness for `submit_failure_salvages_report` at a concrete input. -/
theorem submit_failure_salvages_report_witness :
    ([cRecA] ≠ ([] : List CanonicalRecord)) ∧
    postRejecting [cRecA] = .error errRejecting ∧
    errRejecting.response = some respRejecting ∧
    respRejecting.body.response = some repRejecting ∧
    (processDataValuesBatchV2 postRejecting [cRecA]).1 =
      .ok (.report repRejecting.importCount repRejecting.conflicts) ∧
    (processDataValuesBatchV1 postRejecting [cRecA]).2.2 =
      [LogV1.importing 1, LogV1.conflictsLine ["c1", "c2", "c3"],
       LogV1.importCountLine (some ⟨0, 0, 3, 0⟩)] := by
  have h := submit_failure_salvages_report postRejecting [cRecA]
    errRejecting respRejecting repRejecting (by simp) rfl rfl rfl
  refine ⟨by simp, rfl, rfl, rfl, h.1, ?_⟩
  have h2 := h.2 ⟨0, 0, 3, 0⟩ ["c1", "c2", "c3"] rfl rfl
  simpa using h2

/-- C10: submitting an empty list of data values returns the
`{ imported: 0 }` object immediately, issuing no HTTP request, in both
class variants. -/
theorem empty_batch_no_request
    (post postB : List CanonicalRecord → Except AxiosErr RespData) :
    processDataValuesBatchV2 post [] = (.ok .emptyShort, 0) ∧
    processDataValuesBatchV1 postB [] = (.emptyShort, 0, [LogV1.importing 0]) := by
  constructor
  · simp [processDataValuesBatchV2]
  · simp [processDataValuesBatchV1]

/-! ## Unit of work and orchestrator (`main.js` class variants)

The period variant's `downloadCSV` (lines 475-536) chunks the parsed
records, awaits `processDataValuesBatch` for each chunk in order, and
accumulates the four counters from each batch's `importCount`
(`result.importCount.imported || 0` and friends), concatenating the
conflicts; it resolves `{imported, ignored, deleted, updated,
conflicts}`.  Its `transferData` (lines 575-626) iterates the org
units, adds each successful unit's counters to run totals, converts a
per-unit failure into an `{orgUnit, error}` entry, and returns the
summary with `errors: errors.length ? errors : undefined`.

The date-range variant's `transferData` (lines 269-313) declares the
same four run totals but never updates them: its `downloadCSV` resolves
only `{processed: true}` and its `processDataValuesBatch` merely logs
the destination's import report. -/

structure OrgUnit where
  id : String
  name : String
deriving DecidableEq, Repr

/-- The object resolved by the period variant's `downloadCSV`.  An
element `none` in `conflicts` models the `undefined` appended by
`concat(result.conflicts)` when a batch result had no `conflicts`
member. -/
structure UnitResult where
  imported : Nat
  ignored : Nat
  deleted : Nat
  updated : Nat
  conflicts : List (Option String)
deriving DecidableEq, Repr

/-- An `{orgUnit, error}` entry of the `errors` array. -/
structure ErrEntry where
  orgUnit : String
  error : String
deriving DecidableEq, Repr

/-- The summary object returned by `transferData` in both class
variants. -/
structure Summary where
  totalImported : Nat
  totalUpdated : Nat
  totalIgnored : Nat
  totalDeleted : Nat
  totalOrgUnits : Nat
  errors : Option (List ErrEntry)
deriving DecidableEq, Repr

/-- One turn of the period variant's per-batch accumulation:
`totalX += result.importCount.x || 0` for the four counters and
`conflicts = conflicts.concat(result.conflicts)`.  Accessing
`importCount.imported` throws a `TypeError` when `importCount` is
`undefined` (as on the `{imported: 0}` empty-batch object). -/
def addBatchResult (acc : UnitResult) (r : BatchResult) :
    Except JsFailure UnitResult :=
  match r with
  | .emptyShort => .error .typeError
  | .report none _ => .error .typeError
  | .report (some ic) cfl =>
    .ok { imported := acc.imported + ic.imported
          ignored := acc.ignored + ic.ignored
          deleted := acc.deleted + ic.deleted
          updated := acc.updated + ic.updated
          conflicts := acc.conflicts ++ (match cfl with
            | some cs => cs.map some
            | none => [none]) }

/-- The period variant's sequential submission loop:
`for (const batch of batches) { const result = await
processDataValuesBatch(batch); ... }`. -/
def submitBatches (post : List CanonicalRecord → Except AxiosErr RespData) :
    UnitResult → List (List CanonicalRecord) → Except JsFailure UnitResult
  | acc, [] => .ok acc
  | acc, b :: bs =>
    match (processDataValuesBatchV2 post b).1 with
    | .error e => .error e
    | .ok r =>
      match addBatchResult acc r with
      | .error e => .error e
      | .ok acc2 => submitBatches post acc2 bs

/-- The period variant's `downloadCSV` `complete` callback (`main.js`
lines 502-527): chunk the records and submit every batch in order,
starting from all-zero totals. -/
def downloadCSVv2 (post : List CanonicalRecord → Except AxiosErr RespData)
    (B : Nat) (dataValues : List CanonicalRecord) :
    Except JsFailure UnitResult :=
  submitBatches post ⟨0, 0, 0, 0, []⟩ (lchunk dataValues B)

/-- The error message string stored in an `errors` entry. -/
def JsFailure.message : JsFailure → String
  | .typeError => "TypeError"

/-- The local accumulators of `transferData` in the period variant:
the four run totals plus the `errors` array. -/
structure TransferAcc where
  totalImported : Nat
  totalUpdated : Nat
  totalIgnored : Nat
  totalDeleted : Nat
  errors : List ErrEntry
deriving DecidableEq, Repr

/-- One turn of the period variant's org-unit loop (`main.js` lines
584-613): a successful unit adds its counters to the run totals; a
failing unit appends an `{orgUnit: name, error: message}` entry. -/
def transferStep (process : OrgUnit → Except String UnitResult)
    (acc : TransferAcc) (ou : OrgUnit) : TransferAcc :=
  match process ou with
  | .ok r =>
    { acc with totalImported := acc.totalImported + r.imported
               totalIgnored := acc.totalIgnored + r.ignored
               totalDeleted := acc.totalDeleted + r.deleted
               totalUpdated := acc.totalUpdated + r.updated }
  | .error m =>
    { acc with errors := acc.errors ++ [⟨ou.name, m⟩] }

/-- The period variant's `transferData` (`main.js` lines 575-626) with
the per-unit work abstracted as `process`: fold the org units through
the loop body, then return the summary; `errors` is `undefined` when
no unit failed (`errors.length ? errors : undefined`). -/
def transferDataV2 (process : OrgUnit → Except String UnitResult)
    (orgUnits : List OrgUnit) : Summary :=
  let acc := orgUnits.foldl (transferStep process) ⟨0, 0, 0, 0, []⟩
  { totalImported := acc.totalImported
    totalUpdated := acc.totalUpdated
    totalIgnored := acc.totalIgnored
    totalDeleted := acc.totalDeleted
    totalOrgUnits := orgUnits.length
    errors := match acc.errors with
      | [] => none
      | es => some es }

/-- The date-range variant's `transferData` (`main.js` lines 269-313):
the four run totals are declared, never updated, and returned as-is;
only the error entries are accumulated. -/
def transferDataV1 (process : OrgUnit → Except String Bool)
    (orgUnits : List OrgUnit) : Summary :=
  let errs := orgUnits.foldl
    (fun acc ou =>
      match process ou with
      | .ok _ => acc
      | .error m => acc ++ [⟨ou.name, m⟩])
    ([] : List ErrEntry)
  { totalImported := 0
    totalUpdated := 0
    totalIgnored := 0
    totalDeleted := 0
    totalOrgUnits := orgUnits.length
    errors := match errs with
      | [] => none
      | es => some es }

/-- The unit outcome a successful `process` call contributes to the run
totals (a failed unit contributes nothing). -/
def okCounts (process : OrgUnit → Except String UnitResult)
    (u : OrgUnit) : UnitResult :=
  match process u with
  | .ok r => r
  | .error _ => ⟨0, 0, 0, 0, []⟩

/-- The error entries produced by a run, in org-unit order. -/
def failEntries (process : OrgUnit → Except String UnitResult)
    (units : List OrgUnit) : List ErrEntry :=
  units.filterMap (fun u =>
    match process u with
    | .ok _ => none
    | .error m => some ⟨u.name, m⟩)

theorem failEntries_nil (process : OrgUnit → Except String UnitResult) :
    failEntries process [] = [] := rfl

theorem failEntries_cons (process : OrgUnit → Except String UnitResult)
    (u : OrgUnit) (units : List OrgUnit) :
    failEntries process (u :: units) =
      (match process u with
       | .ok _ => ([] : List ErrEntry)
       | .error m => [⟨u.name, m⟩]) ++ failEntries process units := by
  unfold failEntries
  rw [List.filterMap_cons]
  cases process u <;> simp

theorem failEntries_eq_nil (process : OrgUnit → Except String UnitResult)
    (units : List OrgUnit) (hok : ∀ u ∈ units, ∃ r, process u = .ok r) :
    failEntries process units = [] := by
  induction units with
  | nil => rfl
  | cons u units ih =>
    rcases hok u (List.mem_cons_self u units) with ⟨r, hr⟩
    rw [failEntries_cons, hr]
    exact ih (fun v hv => hok v (List.mem_cons_of_mem u hv))

/-- Closed form of the period variant's org-unit fold. -/
theorem transferFold_spec (process : OrgUnit → Except String UnitResult)
    (units : List OrgUnit) :
    ∀ acc : TransferAcc,
      units.foldl (transferStep process) acc =
        ⟨acc.totalImported + (units.map fun u => (okCounts process u).imported).sum,
         acc.totalUpdated + (units.map fun u => (okCounts process u).updated).sum,
         acc.totalIgnored + (units.map fun u => (okCounts process u).ignored).sum,
         acc.totalDeleted + (units.map fun u => (okCounts process u).deleted).sum,
         acc.errors ++ failEntries process units⟩ := by
  induction units with
  | nil =>
    intro acc
    simp [failEntries_nil]
  | cons u units ih =>
    intro acc
    rw [List.foldl_cons, ih]
    cases hpu : process u with
    | ok r =>
      simp [transferStep, hpu, failEntries_cons, okCounts, Nat.add_assoc]
    | error m =>
      simp [transferStep, hpu, failEntries_cons, okCounts, Nat.add_assoc]

/-- C3: when exactly one org unit's processing fails, the period
variant's orchestrator still processes every other unit (each
successful unit's counters reach the run totals), returns normally
with `totalOrgUnits` equal to the number of units attempted, and the
summary's `errors` array names exactly the failed unit with its
message. -/
theorem orchestrator_error_isolation
    (process : OrgUnit → Except String UnitResult)
    (pre post : List OrgUnit) (bad : OrgUnit) (msg : String)
    (hbad : process bad = .error msg)
    (hok : ∀ u ∈ pre ++ post, ∃ r, process u = .ok r) :
    (transferDataV2 process (pre ++ bad :: post)).totalOrgUnits =
      (pre ++ bad :: post).length ∧
    (transferDataV2 process (pre ++ bad :: post)).errors =
      some [⟨bad.name, msg⟩] ∧
    (transferDataV2 process (pre ++ bad :: post)).totalImported =
      ((pre ++ post).map fun u => (okCounts process u).imported).sum ∧
    (transferDataV2 process (pre ++ bad :: post)).totalUpdated =
      ((pre ++ post).map fun u => (okCounts process u).updated).sum ∧
    (transferDataV2 process (pre ++ bad :: post)).totalIgnored =
      ((pre ++ post).map fun u => (okCounts process u).ignored).sum ∧
    (transferDataV2 process (pre ++ bad :: post)).totalDeleted =
      ((pre ++ post).map fun u => (okCounts process u).deleted).sum := by
  have hpre : ∀ u ∈ pre, ∃ r, process u = .ok r :=
    fun u hu => hok u (List.mem_append_left post hu)
  have hpost : ∀ u ∈ post, ∃ r, process u = .ok r :=
    fun u hu => hok u (List.mem_append_right pre hu)
  have h1 : failEntries process pre = [] := failEntries_eq_nil process pre hpre
  have h2 : failEntries process post = [] := failEntries_eq_nil process post hpost
  have hfail : failEntries process (pre ++ bad :: post) = [⟨bad.name, msg⟩] := by
    unfold failEntries
    rw [List.filterMap_append, List.filterMap_cons, hbad]
    unfold failEntries at h1 h2
    rw [h1, h2]
    rfl
  have hbadCounts : okCounts process bad = ⟨0, 0, 0, 0, []⟩ := by
    simp [okCounts, hbad]
  have hacc := transferFold_spec process (pre ++ bad :: post) ⟨0, 0, 0, 0, []⟩
  refine ⟨?_, ?_, ?_, ?_, ?_, ?_⟩ <;>
    simp [transferDataV2, hacc, hfail, hbadCounts]

/-- A concrete per-unit outcome map for the witness: "Unit B" fails
with a network error, every other unit succeeds with seven imported
and one ignored record. -/
def procWitC3 : OrgUnit → Except String UnitResult := fun u =>
  if u.name = "Unit B" then .error "network error"
  else .ok ⟨7, 1, 0, 0, []⟩

/-- Concrete org units used by witnesses. -/
def ouA3 : OrgUnit := ⟨"a1", "Unit A"⟩

def ouB3 : OrgUnit := ⟨"b1", "Unit B"⟩

def ouC3 : OrgUnit := ⟨"c1", "Unit C"⟩

/-- Witness for `orchestrator_error_isolation`: three units, the middle
one failing. -/
theorem orchestrator_error_isolation_witness :
    (procWitC3 ouB3 = .error "network error") ∧
    (∀ u ∈ [ouA3] ++ [ouC3], ∃ r, procWitC3 u = .ok r) ∧
    (transferDataV2 procWitC3 ([ouA3] ++ ouB3 :: [ouC3])).totalOrgUnits =
      ([ouA3] ++ ouB3 :: [ouC3]).length ∧
    (transferDataV2 procWitC3 ([ouA3] ++ ouB3 :: [ouC3])).errors =
      some [⟨"Unit B", "network error"⟩] ∧
    (transferDataV2 procWitC3 ([ouA3] ++ ouB3 :: [ouC3])).totalImported =
      (([ouA3] ++ [ouC3]).map fun u => (okCounts procWitC3 u).imported).sum := by
  have hbad : procWitC3 ouB3 = .error "network error" := by
    simp [procWitC3, ouB3]
  have hok : ∀ u ∈ [ouA3] ++ [ouC3], ∃ r, procWitC3 u = .ok r := by
    intro u hu
    simp only [List.mem_append, List.mem_singleton] at hu
    rcases hu with hu | hu <;> subst hu <;>
      exact ⟨⟨7, 1, 0, 0, []⟩, by simp [procWitC3, ouA3, ouC3]⟩
  have h := orchestrator_error_isolation procWitC3 [ouA3] [ouC3] ouB3
    "network error" hbad hok
  exact ⟨hbad, hok, h.1, h.2.1, h.2.2.1⟩

/-- The import count carried by an optional import report, all-zero
when absent. -/
def reportOf : Option ImportReport → ImportCount
  | some rep => rep.importCount.getD ⟨0, 0, 0, 0⟩
  | none => ⟨0, 0, 0, 0⟩

/-- What the destination reported for one submitted batch: the import
count carried by the HTTP response body, whether the request succeeded
or failed at the HTTP level. -/
def destinationReported (post : List CanonicalRecord → Except AxiosErr RespData)
    (b : List CanonicalRecord) : ImportCount :=
  match post b with
  | .ok body => reportOf body.response
  | .error e =>
    match e.response with
    | some resp => reportOf resp.body.response
    | none => ⟨0, 0, 0, 0⟩

/-- A batch result carrying an import count comes verbatim from the
destination's response body. -/
theorem processBatch_report_matches
    (post : List CanonicalRecord → Except AxiosErr RespData)
    (b : List CanonicalRecord) (ic : ImportCount) (cfl : Option (List String))
    (h : (processDataValuesBatchV2 post b).1 = .ok (.report (some ic) cfl)) :
    destinationReported post b = ic := by
  unfold processDataValuesBatchV2 at h
  by_cases hlen : b.length = 0
  · rw [if_pos hlen] at h
    simp at h
  · rw [if_neg hlen] at h
    cases hp : post b with
    | ok body =>
      cases hresp : body.response with
      | none => simp [hp, hresp] at h
      | some rep =>
        simp [hp, hresp] at h
        simp [destinationReported, hp, hresp, reportOf, h.1]
    | error e =>
      cases hresp : e.response with
      | none => simp [hp, hresp] at h
      | some resp =>
        cases hbody : resp.body.response with
        | none => simp [hp, hresp, hbody] at h
        | some rep =>
          simp [hp, hresp, hbody] at h
          simp [destinationReported, hp, hresp, hbody, reportOf, h.1]

/-- A successful run of the period variant's submission loop sums, for
each of the four counters, exactly what the destination reported per
batch. -/
theorem submitBatches_counts
    (post : List CanonicalRecord → Except AxiosErr RespData)
    (bs : List (List CanonicalRecord)) :
    ∀ acc r, submitBatches post acc bs = .ok r →
      r.imported = acc.imported +
        (bs.map fun b => (destinationReported post b).imported).sum ∧
      r.ignored = acc.ignored +
        (bs.map fun b => (destinationReported post b).ignored).sum ∧
      r.deleted = acc.deleted +
        (bs.map fun b => (destinationReported post b).deleted).sum ∧
      r.updated = acc.updated +
        (bs.map fun b => (destinationReported post b).updated).sum := by
  induction bs with
  | nil =>
    intro acc r h
    rw [submitBatches] at h
    cases h
    simp
  | cons b bs ih =>
    intro acc r h
    rw [submitBatches] at h
    cases hpb : (processDataValuesBatchV2 post b).1 with
    | error e =>
      rw [hpb] at h
      cases h
    | ok br =>
      rw [hpb] at h
      cases br with
      | emptyShort => simp [addBatchResult] at h
      | report icOpt cfl =>
        cases icOpt with
        | none => simp [addBatchResult] at h
        | some ic =>
          simp only [addBatchResult] at h
          obtain ⟨e1, e2, e3, e4⟩ := ih _ r h
          have hic := processBatch_report_matches post b ic cfl hpb
          simp only [List.map_cons, List.sum_cons, hic]
          dsimp only at e1 e2 e3 e4
          refine ⟨?_, ?_, ?_, ?_⟩ <;> omega

/-- The counters of a successfully processed unit of work are the sums
of the destination's per-batch reports over the unit's batches. -/
theorem downloadCSVv2_counts
    (post : List CanonicalRecord → Except AxiosErr RespData)
    (B : Nat) (dataValues : List CanonicalRecord) (r : UnitResult)
    (h : downloadCSVv2 post B dataValues = .ok r) :
    r.imported = ((lchunk dataValues B).map
      fun b => (destinationReported post b).imported).sum ∧
    r.ignored = ((lchunk dataValues B).map
      fun b => (destinationReported post b).ignored).sum ∧
    r.deleted = ((lchunk dataValues B).map
      fun b => (destinationReported post b).deleted).sum ∧
    r.updated = ((lchunk dataValues B).map
      fun b => (destinationReported post b).updated).sum := by
  have := submitBatches_counts post (lchunk dataValues B) ⟨0, 0, 0, 0, []⟩ r h
  simpa using this

/-- The date-range variant's `downloadCSV` `complete` callback
(`main.js` lines 200-221): filter the records to the permitted data
elements, chunk them, submit each chunk (discarding each batch's
outcome), and resolve `{processed: true}`.  First component: the
resolved flag; second: the batches that were submitted. -/
def downloadCSVv1 (post : List CanonicalRecord → Except AxiosErr RespData)
    (B : Nat) (dataValues : List CanonicalRecord)
    (dataElements : List String) : Bool × List (List CanonicalRecord) :=
  let filtered := dataValues.filter (fun dv =>
    match dv.dataElement with
    | some de => dataElements.contains de
    | none => false)
  (true, lchunk filtered B)

/-- The destination used by the C5 counterexample: every submission
succeeds and reports five imported records. -/
def post5 : List CanonicalRecord → Except AxiosErr RespData :=
  fun _ => .ok ⟨some ⟨some ⟨5, 0, 0, 0⟩, some []⟩⟩

/-- C5  counterexample: in the date-range variant, a run over one org
unit whose single batch the destination reports as five imported
records still yields a summary with `totalImported = 0` — the totals
are declared but never accumulated, so the claim fails on this
variant. -/
theorem run_totals_cex :
    (transferDataV1
        (fun _ => .ok (downloadCSVv1 post5 1000 [cRecA] ["de1"]).1)
        [ouA3]).totalImported = 0 ∧
    ((downloadCSVv1 post5 1000 [cRecA] ["de1"]).2.map
      (fun b => (destinationReported post5 b).imported)).sum = 5 ∧
    (0 : Nat) ≠ 5 := by
  refine ⟨rfl, ?_, by decide⟩
  have hfil : (List.filter (fun dv =>
      match dv.dataElement with
      | some de => (["de1"] : List String).contains de
      | none => false) [cRecA]) = [cRecA] := by decide
  have h1 : lchunk [cRecA] 1000 = [[cRecA]] := by
    rw [lchunk_cons _ _ (by decide) (by simp)]
    simp [lchunk_nil]
  have hdl : downloadCSVv1 post5 1000 [cRecA] ["de1"] = (true, [[cRecA]]) := by
    simp only [downloadCSVv1]
    rw [hfil, h1]
  rw [hdl]
  simp [destinationReported, post5, reportOf]

/-- C5 amended: in the period variant, the final summary's four totals
are exactly the sums of the per-unit counters of the successful units,
`totalOrgUnits` is the number of units, and each successful unit's
counters are in turn the sums of the destination's per-batch import
reports; in the date-range variant the four totals are reported as
zero regardless of what the destination reported. -/
theorem run_totals_amended
    (post : OrgUnit → List CanonicalRecord → Except AxiosErr RespData)
    (recs : OrgUnit → List CanonicalRecord) (B : Nat) (units : List OrgUnit)
    (process : OrgUnit → Except String UnitResult)
    (hproc : ∀ u, process u =
      (downloadCSVv2 (post u) B (recs u)).mapError JsFailure.message)
    (procV1 : OrgUnit → Except String Bool) :
    ((transferDataV2 process units).totalImported =
       (units.map fun u => (okCounts process u).imported).sum ∧
     (transferDataV2 process units).totalUpdated =
       (units.map fun u => (okCounts process u).updated).sum ∧
     (transferDataV2 process units).totalIgnored =
       (units.map fun u => (okCounts process u).ignored).sum ∧
     (transferDataV2 process units).totalDeleted =
       (units.map fun u => (okCounts process u).deleted).sum ∧
     (transferDataV2 process units).totalOrgUnits = units.length) ∧
    (∀ u r, process u = .ok r →
       r.imported = ((lchunk (recs u) B).map
         fun b => (destinationReported (post u) b).imported).sum) ∧
    ((transferDataV1 procV1 units).totalImported = 0 ∧
     (transferDataV1 procV1 units).totalUpdated = 0 ∧
     (transferDataV1 procV1 units).totalIgnored = 0 ∧
     (transferDataV1 procV1 units).totalDeleted = 0) := by
  refine ⟨?_, ?_, rfl, rfl, rfl, rfl⟩
  · have hacc := transferFold_spec process units ⟨0, 0, 0, 0, []⟩
    exact ⟨by simp [transferDataV2, hacc], by simp [transferDataV2, hacc],
      by simp [transferDataV2, hacc], by simp [transferDataV2, hacc],
      by simp [transferDataV2, hacc]⟩
  · intro u r hr
    rw [hproc u] at hr
    cases hx : downloadCSVv2 (post u) B (recs u) with
    | error e =>
      rw [hx] at hr
      simp [Except.mapError] at hr
    | ok r2 =>
      rw [hx] at hr
      simp [Except.mapError] at hr
      subst hr
      exact (downloadCSVv2_counts (post u) B (recs u) r2 hx).1

/-- The per-unit process of the C5 amended witness: two records, batch
size one, the destination reporting five imported per batch. -/
def procWitC5 : OrgUnit → Except String UnitResult := fun u =>
  (downloadCSVv2 post5 1 [cRecA, cRecA]).mapError JsFailure.message

/-- Witness for `run_totals_amended` at one concrete org unit. -/
theorem run_totals_amended_witness :
    (∀ u, procWitC5 u =
      (downloadCSVv2 post5 1 [cRecA, cRecA]).mapError JsFailure.message) ∧
    (transferDataV2 procWitC5 [ouA3]).totalImported =
      (([ouA3] : List OrgUnit).map fun u => (okCounts procWitC5 u).imported).sum ∧
    (∀ u r, procWitC5 u = .ok r →
       r.imported = ((lchunk [cRecA, cRecA] 1).map
         fun b => (destinationReported post5 b).imported).sum) ∧
    (transferDataV1 (fun _ => .ok true) [ouA3]).totalImported = 0 := by
  have h := run_totals_amended (fun _ => post5) (fun _ => [cRecA, cRecA]) 1
    [ouA3] procWitC5 (fun u => rfl) (fun _ => .ok true)
  exact ⟨fun u => rfl, h.1.1, h.2.1, h.2.2.1⟩

/-! ## Date validation (streaming variant, `src/unnamed/part_000`)

`isValidDate` (lines 300-306) accepts a string when it matches
`^\d{4}-\d{2}-\d{2}$` and `new Date(dateString)` is not an Invalid
Date.  For a string of that shape, ECMAScript parses it with the Date
Time String Format, which rejects out-of-range components (month not
in 01-12, day not within the month's length, leap years accounted
for).  `transferData` (lines 573-638) validates both dates and the
`start ≤ end` order before its first network call. -/

/-- Numeric value of a digit character. -/
def digitVal (c : Char) : Nat := c.toNat - 48

/-- The regex test `^\d{4}-\d{2}-\d{2}$`. -/
def dateShape (s : String) : Bool :=
  match s.data with
  | [y1, y2, y3, y4, d1, m1, m2, d2, a1, a2] =>
    y1.isDigit && y2.isDigit && y3.isDigit && y4.isDigit && d1 == '-' &&
      m1.isDigit && m2.isDigit && d2 == '-' && a1.isDigit && a2.isDigit
  | _ => false

/-- The `(year, month, day)` triple read from a shape-conforming date
string. -/
def parseDigits (s : String) : Nat × Nat × Nat :=
  match s.data with
  | [y1, y2, y3, y4, _, m1, m2, _, a1, a2] =>
    (digitVal y1 * 1000 + digitVal y2 * 100 + digitVal y3 * 10 + digitVal y4,
     digitVal m1 * 10 + digitVal m2,
     digitVal a1 * 10 + digitVal a2)
  | _ => (0, 0, 0)

def isLeapYear (y : Nat) : Bool :=
  y % 4 == 0 && (y % 100 != 0 || y % 400 == 0)

def daysInMonth (y m : Nat) : Nat :=
  if m == 2 then (if isLeapYear y then 29 else 28)
  else if m == 4 || m == 6 || m == 9 || m == 11 then 30
  else 31

/-- `isValidDate` from `src/unnamed/part_000` lines 300-306: the shape
test plus `new Date(dateString)` not being Invalid — i.e. month in
1..12 and day in 1..daysInMonth. -/
def isValidDate (s : String) : Bool :=
  dateShape s &&
    (let p := parseDigits s
     decide (1 ≤ p.2.1) && decide (p.2.1 ≤ 12) && decide (1 ≤ p.2.2) &&
       decide (p.2.2 ≤ daysInMonth p.1 p.2.1))

/-- The comparison `new Date(startDate) > new Date(endDate)` on two
shape-conforming dates: lexicographic on (year, month, day). -/
def dateGT (s e : String) : Bool :=
  let a := parseDigits s
  let b := parseDigits e
  decide (b.1 < a.1) ||
    (a.1 == b.1 && (decide (b.2.1 < a.2.1) ||
      (a.2.1 == b.2.1 && decide (b.2.2 < a.2.2))))

/-- Everything the streaming `transferData` does after its date
validation, abstracted: the network calls it would issue and the value
it would produce. -/
structure RunBody (σ : Type) where
  calls : List String
  result : σ
deriving Repr

/-- The streaming variant's `transferData` (`src/unnamed/part_000`
lines 573-638): validate both date strings, then check the order, and
only then run the body (org-unit fetch, concurrent processing,
summary), which issues all the network calls. -/
def transferData {σ : Type} (body : RunBody σ) (startDate endDate : String) :
    Except String σ × List String :=
  if !(isValidDate startDate) || !(isValidDate endDate) then
    (.error "Invalid date format. Please use YYYY-MM-DD format", [])
  else if dateGT startDate endDate then
    (.error "Start date must be before or equal to end date", [])
  else (.ok body.result, body.calls)

/-- C4: when either date is not well-formed `YYYY-MM-DD` (including
impossible dates such as `2024-13-01`) or the start date is after the
end date, the transfer aborts with a configuration error before
issuing any network call — whatever calls the rest of the run would
have made, none are issued. -/
theorem date_validation_aborts {σ : Type} (body : RunBody σ)
    (startDate endDate : String)
    (hbad : isValidDate startDate = false ∨ isValidDate endDate = false ∨
      dateGT startDate endDate = true) :
    (∃ msg, (transferData body startDate endDate).1 = .error msg) ∧
    (transferData body startDate endDate).2 = [] := by
  cases hs : isValidDate startDate with
  | false =>
    constructor
    · exact ⟨"Invalid date format. Please use YYYY-MM-DD format",
        by simp [transferData, hs]⟩
    · simp [transferData, hs]
  | true =>
    cases he : isValidDate endDate with
    | false =>
      constructor
      · exact ⟨"Invalid date format. Please use YYYY-MM-DD format",
          by simp [transferData, hs, he]⟩
      · simp [transferData, hs, he]
    | true =>
      have hgt : dateGT startDate endDate = true := by
        rcases hbad with hb | hb | hb
        · rw [hs] at hb
          cases hb
        · rw [he] at hb
          cases hb
        · exact hb
      constructor
      · exact ⟨"Start date must be before or equal to end date",
          by simp [transferData, hs, he, hgt]⟩
      · simp [transferData, hs, he, hgt]

/-- Witness for `date_validation_aborts`: the impossible date
`2024-13-01`, with a body that would otherwise issue one org-unit
fetch. -/
theorem date_validation_aborts_witness :
    (isValidDate "2024-13-01" = false ∨ isValidDate "2024-12-31" = false ∨
      dateGT "2024-13-01" "2024-12-31" = true) ∧
    (∃ msg, (transferData (⟨["GET organisationUnits"], ()⟩ : RunBody Unit)
      "2024-13-01" "2024-12-31").1 = .error msg) ∧
    (transferData (⟨["GET organisationUnits"], ()⟩ : RunBody Unit)
      "2024-13-01" "2024-12-31").2 = [] := by
  have hbad : isValidDate "2024-13-01" = false := by decide
  have h := date_validation_aborts (⟨["GET organisationUnits"], ()⟩ : RunBody Unit)
    "2024-13-01" "2024-12-31" (Or.inl hbad)
  exact ⟨Or.inl hbad, h.1, h.2⟩

/-! ## Sequential submission within a unit of work (C7)

Both class variants submit with
`for (const batch of batches) { await this.processDataValuesBatch(batch); }`
(`main.js` lines 209-211 and 510-519): each iteration awaits the
completion of its submission before the next iteration starts.  The
trace of submit events produced by that loop is therefore the
alternating start/finish sequence of the batches in chunk order. -/

inductive SubmitEvent (α : Type)
  | start (b : List α)
  | finish (b : List α)
deriving DecidableEq, Repr

/-- The event trace of the sequential `for await` submission loop over
the given batches. -/
def submitTrace (batches : List (List α)) : List (SubmitEvent α) :=
  (batches.map (fun b => [SubmitEvent.start b, SubmitEvent.finish b])).flatten

/-- The batches in the order their submissions began. -/
def startedBatches (t : List (SubmitEvent α)) : List (List α) :=
  t.filterMap (fun e =>
    match e with
    | .start b => some b
    | .finish _ => none)

def countStarts (t : List (SubmitEvent α)) : Nat :=
  (t.filter (fun e =>
    match e with
    | SubmitEvent.start _ => true
    | SubmitEvent.finish _ => false)).length

def countFinishes (t : List (SubmitEvent α)) : Nat :=
  (t.filter (fun e =>
    match e with
    | SubmitEvent.start _ => false
    | SubmitEvent.finish _ => true)).length

theorem submitTrace_cons (b : List α) (bs : List (List α)) :
    submitTrace (b :: bs) =
      SubmitEvent.start b :: SubmitEvent.finish b :: submitTrace bs := by
  simp [submitTrace]

theorem submitTrace_started (bs : List (List α)) :
    startedBatches (submitTrace bs) = bs := by
  induction bs with
  | nil => rfl
  | cons b bs ih =>
    rw [submitTrace_cons]
    simp only [startedBatches, List.filterMap_cons] at ih ⊢
    simpa using ih

/-- Every prefix of the trace has at most one submission in flight:
the number of started submissions never exceeds the number of finished
ones by more than one, and nothing finishes before it starts. -/
theorem submitTrace_serialized (bs : List (List α)) :
    ∀ n, countFinishes ((submitTrace bs).take n) ≤
        countStarts ((submitTrace bs).take n) ∧
      countStarts ((submitTrace bs).take n) ≤
        countFinishes ((submitTrace bs).take n) + 1 := by
  induction bs with
  | nil =>
    intro n
    simp [submitTrace, countStarts, countFinishes]
  | cons b bs ih =>
    intro n
    rw [submitTrace_cons]
    match n with
    | 0 => simp [countStarts, countFinishes]
    | 1 => simp [countStarts, countFinishes]
    | Nat.succ (Nat.succ m) =>
      have hm := ih m
      simp only [List.take_succ_cons, countStarts, countFinishes,
        List.filter_cons] at hm ⊢
      simp at hm ⊢
      omega

/-- C7: within one unit of work the batches are submitted strictly
sequentially in extraction order — the trace starts the batches in
chunk order, chunk order concatenates back to extraction order, and at
every point of the trace at most one submission is in flight (each
submission finishes before the next starts). -/
theorem sequential_batch_submission (records : List α) (B : Nat) (hB : 0 < B) :
    startedBatches (submitTrace (lchunk records B)) = lchunk records B ∧
    (lchunk records B).flatten = records ∧
    (∀ n, countFinishes ((submitTrace (lchunk records B)).take n) ≤
        countStarts ((submitTrace (lchunk records B)).take n) ∧
      countStarts ((submitTrace (lchunk records B)).take n) ≤
        countFinishes ((submitTrace (lchunk records B)).take n) + 1) :=
  ⟨submitTrace_started _,
    lchunk_join B records (Nat.pos_iff_ne_zero.mp hB),
    submitTrace_serialized _⟩

/-- Witness for `sequential_batch_submission` at three records and
batch size two. -/
theorem sequential_batch_submission_witness :
    0 < 2 ∧
    (startedBatches (submitTrace (lchunk [1, 2, 3] 2)) = lchunk [1, 2, 3] 2 ∧
     (lchunk [1, 2, 3] 2).flatten = [1, 2, 3] ∧
     (∀ n, countFinishes ((submitTrace (lchunk [1, 2, 3] 2)).take n) ≤
         countStarts ((submitTrace (lchunk [1, 2, 3] 2)).take n) ∧
       countStarts ((submitTrace (lchunk [1, 2, 3] 2)).take n) ≤
         countFinishes ((submitTrace (lchunk [1, 2, 3] 2)).take n) + 1)) :=
  ⟨by decide, sequential_batch_submission [1, 2, 3] 2 (by decide)⟩

/-! ## Staging-file cleanup (`src/unnamed/part_001`, C8)

`downloadCsvFromSource` (lines 62-81) opens a write stream — creating
the file on disk — before it fetches; on a fetch error it throws with
the (possibly empty) file still present.  `transferDataForOrgUnit`
(lines 113-143) downloads, reads, uploads, and then calls
`unlink(fileName)` — but the `unlink` sits inside the `try` after the
upload rather than in a `finally`, so any throw before it (download or
upload failure) jumps to the `catch` and the staging file stays on
disk.  The filesystem is modelled as the list of existing file
names. -/

/-- The staging file name
`data_${dataSetId}_${orgUnitId}_${startDate}_${endDate}.csv`. -/
def stagingFileName (dataSetId orgUnitId startDate endDate : String) : String :=
  "data_" ++ dataSetId ++ "_" ++ orgUnitId ++ "_" ++ startDate ++ "_" ++
    endDate ++ ".csv"

/-- `downloadCsvFromSource`: `createWriteStream` creates the file, then
the fetch either succeeds (resolving the file name) or throws with the
file left in place. -/
def downloadCsvFromSource (fetchOk : Bool) (fileName : String)
    (fs : List String) : Except String String × List String :=
  let fs1 := if fs.contains fileName then fs else fs ++ [fileName]
  if fetchOk then (.ok fileName, fs1)
  else (.error "Error downloading CSV", fs1)

/-- `transferDataForOrgUnit`: download, upload, and unlink — the unlink
runs only when download and upload both succeeded, because it sits
inside the `try` and the `catch` swallows the error without cleaning
up.  Returns the filesystem after the unit completes. -/
def transferDataForOrgUnit (fetchOk uploadOk : Bool) (dataSetId : String)
    (ou : OrgUnit) (startDate endDate : String) (fs : List String) :
    List String :=
  let fileName := stagingFileName dataSetId ou.id startDate endDate
  match downloadCsvFromSource fetchOk fileName fs with
  | (.error _, fs1) => fs1
  | (.ok f, fs1) => if uploadOk then fs1.erase f else fs1

/-- C8 (code bug): the staging file is removed only on the success
path.  After an upload failure — and likewise after a download
failure — the unit completes with its staging file still on disk,
contradicting the claim that every exit path removes it; only the
success path deletes the file. -/
theorem staging_file_left_on_failure :
    (transferDataForOrgUnit true false "ds1" ⟨"ou1", "Unit One"⟩
        "2024-01-01" "2024-03-31" []).contains
      (stagingFileName "ds1" "ou1" "2024-01-01" "2024-03-31") = true ∧
    (transferDataForOrgUnit false false "ds1" ⟨"ou1", "Unit One"⟩
        "2024-01-01" "2024-03-31" []).contains
      (stagingFileName "ds1" "ou1" "2024-01-01" "2024-03-31") = true ∧
    (transferDataForOrgUnit true true "ds1" ⟨"ou1", "Unit One"⟩
        "2024-01-01" "2024-03-31" []).contains
      (stagingFileName "ds1" "ou1" "2024-01-01" "2024-03-31") = false := by
  refine ⟨?_, ?_, ?_⟩ <;> decide

/-! ## Bounded-concurrency scheduler (`src/unnamed/part_000`, C9)

`processConcurrentOrgUnits` (lines 513-570) keeps a queue of pending
org units and a set of in-flight promises.  Its inner loop starts a
new unit only while `active.size < concurrency`; a completing promise
removes itself from `active`.  The scheduler is embedded as a
transition system whose two steps mirror those two guarded actions. -/

structure SchedState where
  queue : List String
  active : List String
  completed : Nat
deriving DecidableEq, Repr

/-- One scheduler action: admit the next queued unit while below the
concurrency limit, or complete an in-flight unit. -/
inductive SchedStep (concurrency : Nat) : SchedState → SchedState → Prop
  | start (s : SchedState) (u : String) (q : List String)
      (hq : s.queue = u :: q) (hc : s.active.length < concurrency) :
      SchedStep concurrency s ⟨q, s.active ++ [u], s.completed⟩
  | complete (s : SchedState) (u : String) (hu : u ∈ s.active) :
      SchedStep concurrency s ⟨s.queue, s.active.erase u, s.completed + 1⟩

/-- The scheduler's initial state: everything queued, nothing in
flight. -/
def initSched (orgUnits : List String) : SchedState := ⟨orgUnits, [], 0⟩

theorem schedStep_active_le (c : Nat) (s s2 : SchedState)
    (hstep : SchedStep c s s2) (hs : s.active.length ≤ c) :
    s2.active.length ≤ c := by
  cases hstep with
  | start u q hq hc =>
    simp only [List.length_append, List.length_singleton]
    omega
  | complete u hu =>
    have h2 := List.length_erase_add_one hu
    simp only []
    omega

/-- C9: in every state the scheduler can reach from its initial state,
the number of in-flight units never exceeds the concurrency limit — a
new unit is admitted only while strictly fewer than `concurrency`
units are in flight. -/
theorem bounded_concurrency_invariant (c : Nat) (orgUnits : List String)
    (s : SchedState)
    (hreach : Relation.ReflTransGen (SchedStep c) (initSched orgUnits) s) :
    s.active.length ≤ c := by
  induction hreach with
  | refl => simp [initSched]
  | tail hr hstep ih => exact schedStep_active_le c _ _ hstep ih

/-- Witness for `bounded_concurrency_invariant`: three units, limit
two, after admitting the first two units. -/
theorem bounded_concurrency_invariant_witness :
    Relation.ReflTransGen (SchedStep 2) (initSched ["ou1", "ou2", "ou3"])
      ⟨["ou3"], ["ou1", "ou2"], 0⟩ ∧
    (SchedState.mk ["ou3"] ["ou1", "ou2"] 0).active.length ≤ 2 := by
  have h1 : SchedStep 2 (initSched ["ou1", "ou2", "ou3"])
      ⟨["ou2", "ou3"], ["ou1"], 0⟩ :=
    SchedStep.start _ "ou1" _ rfl (by decide)
  have h2 : SchedStep 2 (⟨["ou2", "ou3"], ["ou1"], 0⟩ : SchedState)
      ⟨["ou3"], ["ou1", "ou2"], 0⟩ :=
    SchedStep.start _ "ou2" _ rfl (by decide)
  have htr := Relation.ReflTransGen.tail (Relation.ReflTransGen.single h1) h2
  exact ⟨htr, bounded_concurrency_invariant 2 ["ou1", "ou2", "ou3"] _ htr⟩

end AdexExport